import Mathlib

/-!
Verification of the clinic scheduling service (`src/main.py`) against its
natural-language specification.

Shallow embedding conventions:
* A time-of-day is a `Nat` counted in minutes since midnight (`0 ≤ t < 1440`);
  parsing `"HH:MM"` strings mirrors `datetime.strptime(_, "%H:%M")`.
* An instant (`datetime`) is a `Nat` counted in minutes since an epoch chosen so
  that day number `0` is a Monday; the date component of an instant `t` is
  `t / 1440` and its time-of-day component is `t % 1440` (the service zeroes
  seconds and microseconds everywhere it builds an instant, so minute
  granularity is faithful).
* Python string comparison (used by the lunch filter in `get_slots`) is
  lexicographic on code points; it is embedded as the executable functions
  `pyStrLt` / `pyStrLe` below rather than Lean's built-in `String` order.
* The JSON stores are embedded as values: the schedules file as an association
  list `List (String × Schedule)` and the appointments file as a
  `List Appointment` (records are stored pre-parsed; `save_json` round-trips
  through `isoformat`/`fromisoformat` losslessly at minute precision).
  A failing `load_json` (missing file / bad JSON, which raises an
  `HTTPException`) is embedded by passing the store as `Except Unit _` with
  `.error ()` for the unavailable store.
* A Python exception propagating out of the function body is `Except.error ()`;
  the `try/except Exception` wrapper of each endpoint is the `*_endpoint`
  function that converts any such error into the generic "having trouble"
  in-band response, embedded as the `trouble` outcome.
-/

/-! ### Python string primitives -/

/-- Python `str.strip()`: remove leading and trailing whitespace. -/
def pyStrip (s : String) : String :=
  ⟨((s.data.dropWhile Char.isWhitespace).reverse.dropWhile Char.isWhitespace).reverse⟩

/-- Python `str.capitalize()`: first character upper-cased, the rest lower-cased. -/
def pyCapitalize (s : String) : String :=
  match s.data with
  | [] => ""
  | c :: cs => ⟨c.toUpper :: cs.map Char.toLower⟩

/-- Python `<` on strings: lexicographic comparison of code points. -/
def pyStrLtL : List Char → List Char → Bool
  | [], [] => false
  | [], _ :: _ => true
  | _ :: _, [] => false
  | a :: as, b :: bs =>
    if a < b then true
    else if b < a then false
    else pyStrLtL as bs

/-- Python `s1 < s2` on strings. -/
def pyStrLt (a b : String) : Bool := pyStrLtL a.data b.data

/-- Python `s1 <= s2` on strings (total order, so `a <= b` iff `not (b < a)`). -/
def pyStrLe (a b : String) : Bool := !pyStrLt b a

/-! ### Time-of-day formatting and parsing -/

/-- The decimal digit character for `n % 10`, as produced by `strftime`. -/
def digitChar (n : Nat) : Char := Char.ofNat (48 + n % 10)

/-- `strftime("%H:%M")` of an instant: the zero-padded label of its
time-of-day component. -/
def fmtHHMM (m : Nat) : String :=
  let t := m % 1440
  ⟨[digitChar (t / 600), digitChar (t / 60), ':', digitChar (t % 60 / 10), digitChar (t % 60)]⟩

/-- Numeric value of a digit character. -/
def digitVal (c : Char) : Nat := c.toNat - 48

/-- `datetime.strptime(s, "%H:%M")`, yielding minutes since midnight.
`%H` greedily matches one or two digits with value `0–23`, then the literal
colon, then `%M` matches one or two digits with value `0–59`, and the whole
string must be consumed; anything else raises `ValueError` (`none`). -/
def parseHHMM (s : String) : Option Nat :=
  match s.data with
  | [a, b, ':', c, d] =>
    if a.isDigit && b.isDigit && c.isDigit && d.isDigit then
      let h := 10 * digitVal a + digitVal b
      let mi := 10 * digitVal c + digitVal d
      if h ≤ 23 && mi ≤ 59 then some (60 * h + mi) else none
    else none
  | [a, ':', c, d] =>
    if a.isDigit && c.isDigit && d.isDigit then
      let h := digitVal a
      let mi := 10 * digitVal c + digitVal d
      if h ≤ 23 && mi ≤ 59 then some (60 * h + mi) else none
    else none
  | [a, b, ':', c] =>
    if a.isDigit && b.isDigit && c.isDigit then
      let h := 10 * digitVal a + digitVal b
      let mi := digitVal c
      if h ≤ 23 && mi ≤ 59 then some (60 * h + mi) else none
    else none
  | [a, ':', c] =>
    if a.isDigit && c.isDigit then
      let h := digitVal a
      let mi := digitVal c
      if h ≤ 23 && mi ≤ 59 then some (60 * h + mi) else none
    else none
  | _ => none

/-- `dt.replace(hour=.., minute=.., second=0, microsecond=0)`: keep the date
component of `dt`, set the time-of-day component to `tod`. -/
def replaceTime (dt tod : Nat) : Nat := dt / 1440 * 1440 + tod

/-! ### Data model -/

/-- One entry of `schedules.json`: `{doctor, start_time, end_time}`. -/
structure Schedule where
  doctor : String
  start_time : String
  end_time : String
deriving DecidableEq

/-- One entry of `appointments.json`: `{name, start_time, end_time}` with the
two instants stored pre-parsed (minutes since epoch). -/
structure Appointment where
  name : String
  start_time : Nat
  end_time : Nat
deriving DecidableEq

/-- The body of a `/log_booking` request: `{name, doctor, day, slot}`. -/
structure BookingRequest where
  name : String
  doctor : String
  day : String
  slot : String
deriving DecidableEq

/-! ### Slot generator (`generate_time_slots`, main.py lines 45–56) -/

/-- The `while current_time < end_time` loop of `generate_time_slots`,
written with explicit fuel so that it is structurally recursive; fuel
`e - current` suffices because each iteration advances `current` by
`interval ≥ 1`. -/
def slot_loop : Nat → Nat → Nat → Nat → List Nat
  | 0, _, _, _ => []
  | fuel + 1, current, e, interval =>
    if current < e then current :: slot_loop fuel (current + interval) e interval
    else []

/-- The slot starts (in minutes) produced by `generate_time_slots` for parsed
bounds.  For `interval = 0` the Python loop would not terminate; the service
only ever calls it with the default `interval = 30`. -/
def slot_minutes (start_t end_t interval : Nat) : List Nat :=
  if 0 < interval then slot_loop (end_t - start_t) start_t end_t interval else []

/-- `generate_time_slots(start, end, interval)`: parse the two `"HH:MM"`
bounds (a `ValueError` propagates, `none`) and emit the `strftime`-formatted
slot-start labels. -/
def generate_time_slots (start_str end_str : String) (interval : Nat) : Option (List String) :=
  match parseHHMM start_str, parseHHMM end_str with
  | some s, some e => some ((slot_minutes s e interval).map fmtHHMM)
  | _, _ => none

/-! ### Date resolver (`get_day_date`, main.py lines 59–72) -/

/-- `days.index(name)` over the fixed list
`["Monday", ..., "Sunday"]`; raises `ValueError` (`none`) when absent. -/
def dayIndex (s : String) : Option Nat :=
  if s = "Monday" then some 0
  else if s = "Tuesday" then some 1
  else if s = "Wednesday" then some 2
  else if s = "Thursday" then some 3
  else if s = "Friday" then some 4
  else if s = "Saturday" then some 5
  else if s = "Sunday" then some 6
  else none

/-- `get_day_date(day_name)` with the reference instant `now` made explicit
(the source reads `datetime.now()`): the next occurrence of the weekday,
keeping the time-of-day of `now`.  Day number `now / 1440` has weekday
`(now / 1440) % 7`, Monday = 0, matching Python's `weekday()`. -/
def get_day_date (day_name : String) (now : Nat) : Option Nat :=
  match dayIndex (pyCapitalize day_name) with
  | none => none
  | some target_day =>
    let current_day := now / 1440 % 7
    let diff : Int := (target_day : Int) - (current_day : Int)
    let days_ahead : Int := if diff < 0 then diff + 7 else diff
    some (now + days_ahead.toNat * 1440)

/-! ### Overlap predicates (main.py lines 89–100 and 288–295) -/

/-- Half-open interval overlap: `[s1, e1)` and `[s2, e2)` intersect. -/
def halfOpenOverlap (s1 e1 s2 e2 : Nat) : Prop := s1 < e2 ∧ s2 < e1

/-- The comparison at the heart of `is_time_in_range`:
`slot_datetime < end and slot_end > start`. -/
def slot_in_range (slot_datetime start_i end_i : Nat) : Bool :=
  decide (slot_datetime < end_i) && decide (slot_datetime + 30 > start_i)

/-- `is_time_in_range(time_str, start, end, date_obj)`: anchor the slot label
on the date of `date_obj` and test overlap with the booked interval.  The
labels fed to it always parse; on an unparsable label the source would raise
(that path is unreachable from `get_slots`). -/
def is_time_in_range (time_str : String) (start_i end_i date_obj : Nat) : Bool :=
  match parseHHMM time_str with
  | some tod => slot_in_range (replaceTime date_obj tod) start_i end_i
  | none => false

/-- The conflict test of `log_booking`:
`not (end_datetime <= appt_start or start_datetime >= appt_end)`. -/
def booking_conflict (start_datetime end_datetime appt_start appt_end : Nat) : Bool :=
  !(decide (end_datetime ≤ appt_start) || decide (start_datetime ≥ appt_end))

/-! ### Availability engine (`get_slots`, main.py lines 167–224) -/

/-- Outcome of `/get_slots/{day}` as seen by the presentation layer:
the clinic-closed message, the structured availability answer, or the
generic "having trouble" message produced by the `except Exception` handler. -/
inductive SlotsOutcome where
  | closed (day : String)
  | ok (doctor : String) (day : String) (available_slots : List String)
  | trouble
deriving DecidableEq

/-- The lunch filter of `get_slots`: keep `slot` unless
`"13:00" <= slot < "14:00"` (Python string comparison). -/
def lunch_filter (slots : List String) : List String :=
  slots.filter (fun slot => !(pyStrLe "13:00" slot && pyStrLt slot "14:00"))

/-- The appointment loop of `get_slots`: for every stored appointment whose
start date equals the resolved date, drop the slots overlapping it. -/
def conflict_filter (available : List String) (appointments : List Appointment)
    (day_date : Nat) : List String :=
  appointments.foldl
    (fun acc ap =>
      if ap.start_time / 1440 = day_date / 1440 then
        acc.filter (fun slot => !is_time_in_range slot ap.start_time ap.end_time day_date)
      else acc)
    available

/-- The body of `get_slots` inside its `try:`.  `Except.error ()` marks a
propagating exception: a failing `load_json` (`HTTPException`), a
`ValueError` from `strptime` on the schedule's times, or from `days.index`
on a non-weekday key. -/
def get_slots_body (schedules : Except Unit (List (String × Schedule)))
    (store : Except Unit (List Appointment)) (day : String) (now : Nat) :
    Except Unit SlotsOutcome :=
  let dayC := pyCapitalize day
  match schedules with
  | .error _ => .error ()
  | .ok scheds =>
    match List.lookup dayC scheds with
    | none => .ok (.closed dayC)
    | some schedule =>
      match generate_time_slots schedule.start_time schedule.end_time 30 with
      | none => .error ()
      | some all_slots =>
        let available1 := lunch_filter all_slots
        match get_day_date dayC now with
        | none => .error ()
        | some day_date =>
          match store with
          | .error _ => .error ()
          | .ok appointments =>
            .ok (.ok schedule.doctor dayC (conflict_filter available1 appointments day_date))

/-- The `/get_slots/{day}` endpoint: the body wrapped in
`try/except Exception`, which maps every raised exception to the generic
"having trouble checking availability" response. -/
def get_slots_endpoint (schedules : Except Unit (List (String × Schedule)))
    (store : Except Unit (List Appointment)) (day : String) (now : Nat) : SlotsOutcome :=
  match get_slots_body schedules store day now with
  | .ok r => r
  | .error _ => .trouble

/-- `get_slots` on readable stores. -/
def get_slots (schedules : List (String × Schedule)) (appointments : List Appointment)
    (day : String) (now : Nat) : SlotsOutcome :=
  get_slots_endpoint (.ok schedules) (.ok appointments) day now

/-! ### Booking validator (`log_booking`, main.py lines 227–330) -/

/-- Outcome of `/log_booking` as seen by the presentation layer; each
constructor corresponds to one distinct response template of the source
(the arguments are the contextual fields each message interpolates), and
`trouble` is the generic response of the `except Exception` handler. -/
inductive BookingOutcome where
  | incompleteRequest
  | clinicClosed (day : String)
  | doctorDayMismatch (scheduled_doctor : String)
  | malformedTime (slot : String)
  | outsideWorkingHours
  | lunchBreak
  | slotTaken
  | success (appt : Appointment)
  | trouble
deriving DecidableEq

/-- The conflict loop of `log_booking`: the `for` loop returns the
slot-taken rejection as soon as one same-date appointment overlaps, which is
exactly an existence test over the list. -/
def conflict_check (appointments : List Appointment) (day_date slot_tod : Nat) : Bool :=
  appointments.any (fun ap =>
    decide (ap.start_time / 1440 = day_date / 1440) &&
    booking_conflict (replaceTime day_date slot_tod) (replaceTime day_date slot_tod + 30)
      ap.start_time ap.end_time)

/-- The body of `log_booking` inside its `try:`.  The second component is
`some newList` when `save_json` was called with `newList` (the success path
only) and `none` when the store file was left untouched.  `Except.error ()`
marks a propagating exception as in `get_slots_body`.  The lunch constants
`13:00`/`14:00` parse to `780`/`840` minutes. -/
def log_booking_body (schedules : Except Unit (List (String × Schedule)))
    (store : Except Unit (List Appointment)) (req : BookingRequest) (now : Nat) :
    Except Unit (BookingOutcome × Option (List Appointment)) :=
  let name := pyStrip req.name
  let doctor := pyStrip req.doctor
  let day := pyCapitalize req.day
  let slot := pyStrip req.slot
  if name = "" ∨ doctor = "" ∨ day = "" ∨ slot = "" then
    .ok (.incompleteRequest, none)
  else
    match schedules with
    | .error _ => .error ()
    | .ok scheds =>
      match List.lookup day scheds with
      | none => .ok (.clinicClosed day, none)
      | some sched =>
        if sched.doctor ≠ doctor then .ok (.doctorDayMismatch sched.doctor, none)
        else
          match parseHHMM slot with
          | none => .ok (.malformedTime slot, none)
          | some slot_tod =>
            match get_day_date day now with
            | none => .error ()
            | some day_date =>
              let start_datetime := replaceTime day_date slot_tod
              let end_datetime := start_datetime + 30
              match parseHHMM sched.start_time, parseHHMM sched.end_time with
              | some work_start, some work_end =>
                let slot_end_time := (slot_tod + 30) % 1440
                if ¬(work_start ≤ slot_tod ∧ slot_tod < work_end) ∨
                    ¬(work_start < slot_end_time ∧ slot_end_time ≤ work_end) then
                  .ok (.outsideWorkingHours, none)
                else if (780 ≤ slot_tod ∧ slot_tod < 840) ∨
                    (780 < slot_end_time ∧ slot_end_time ≤ 840) then
                  .ok (.lunchBreak, none)
                else
                  match store with
                  | .error _ => .error ()
                  | .ok appointments =>
                    if conflict_check appointments day_date slot_tod then
                      .ok (.slotTaken, none)
                    else
                      let entry : Appointment := ⟨name, start_datetime, end_datetime⟩
                      .ok (.success entry, some (appointments ++ [entry]))
              | _, _ => .error ()

/-- The `/log_booking` endpoint: the body wrapped in `try/except Exception`.
Returns the outcome together with the resulting state of the appointments
store file. -/
def log_booking_endpoint (schedules : Except Unit (List (String × Schedule)))
    (store : Except Unit (List Appointment)) (req : BookingRequest) (now : Nat) :
    BookingOutcome × Except Unit (List Appointment) :=
  match log_booking_body schedules store req now with
  | .ok (o, some newStore) => (o, .ok newStore)
  | .ok (o, none) => (o, store)
  | .error _ => (.trouble, store)

/-- `log_booking` on readable stores: the outcome and the resulting
appointment list. -/
def log_booking (schedules : List (String × Schedule)) (appointments : List Appointment)
    (req : BookingRequest) (now : Nat) : BookingOutcome × List Appointment :=
  match log_booking_body (.ok schedules) (.ok appointments) req now with
  | .ok (o, some newStore) => (o, newStore)
  | .ok (o, none) => (o, appointments)
  | .error _ => (.trouble, appointments)

/-- The spec's global invariant relation: two records on the same resolved
calendar date must not have overlapping half-open intervals. -/
def sameDateNoOverlap (a b : Appointment) : Prop :=
  a.start_time / 1440 = b.start_time / 1440 →
    ¬(a.start_time < b.end_time ∧ b.start_time < a.end_time)

instance : DecidableRel sameDateNoOverlap := fun a b => by
  unfold sameDateNoOverlap; infer_instance

/-! ### Digit and label lemmas -/

theorem digitChar_mod (x : Nat) : digitChar (x % 10) = digitChar x := by
  unfold digitChar
  rw [Nat.mod_mod_of_dvd _ (dvd_refl 10)]

theorem digitChar_lt_iff (x y : Nat) : digitChar x < digitChar y ↔ x % 10 < y % 10 := by
  rw [← digitChar_mod x, ← digitChar_mod y]
  have key : ∀ a < 10, ∀ b < 10, (digitChar a < digitChar b ↔ a < b) := by decide
  exact key _ (Nat.mod_lt x (by omega)) _ (Nat.mod_lt y (by omega))

theorem digitChar_isDigit (x : Nat) : (digitChar x).isDigit = true := by
  rw [← digitChar_mod x]
  have key : ∀ a < 10, (digitChar a).isDigit = true := by decide
  exact key _ (Nat.mod_lt x (by omega))

theorem digitVal_digitChar (x : Nat) : digitVal (digitChar x) = x % 10 := by
  rw [← digitChar_mod x]
  have key : ∀ a < 10, digitVal (digitChar a) = a := by decide
  rw [key _ (Nat.mod_lt x (by omega))]

theorem digitChar_not_ws (x : Nat) : (digitChar x).isWhitespace = false := by
  rw [← digitChar_mod x]
  have key : ∀ a < 10, (digitChar a).isWhitespace = false := by decide
  exact key _ (Nat.mod_lt x (by omega))

theorem fmtHHMM_eq_of_lt {m : Nat} (h : m < 1440) :
    fmtHHMM m = ⟨[digitChar (m / 600), digitChar (m / 60), ':',
      digitChar (m % 60 / 10), digitChar (m % 60)]⟩ := by
  unfold fmtHHMM
  rw [Nat.mod_eq_of_lt h]

theorem parseHHMM_fmtHHMM {m : Nat} (h : m < 1440) : parseHHMM (fmtHHMM m) = some m := by
  rw [fmtHHMM_eq_of_lt h]
  show parseHHMM ⟨[digitChar (m / 600), digitChar (m / 60), ':',
      digitChar (m % 60 / 10), digitChar (m % 60)]⟩ = some m
  unfold parseHHMM
  simp only [digitChar_isDigit, digitVal_digitChar, Bool.and_self, Bool.true_and,
    Bool.and_true]
  have e1 : 10 * (m / 600 % 10) + m / 60 % 10 = m / 60 := by omega
  have e2 : 10 * (m % 60 / 10 % 10) + m % 60 % 10 = m % 60 := by omega
  rw [e1, e2]
  have hcond : (decide (m / 60 ≤ 23) && decide (m % 60 ≤ 59)) = true := by
    simp only [Bool.and_eq_true, decide_eq_true_eq]
    omega
  rw [if_pos trivial, if_pos hcond]
  congr 1
  omega

theorem parseHHMM_lt {s : String} {m : Nat} (h : parseHHMM s = some m) : m < 1440 := by
  unfold parseHHMM at h
  split at h <;> simp_all <;> omega

theorem pyStrip_fmtHHMM {m : Nat} (h : m < 1440) : pyStrip (fmtHHMM m) = fmtHHMM m := by
  rw [fmtHHMM_eq_of_lt h]
  show pyStrip ⟨[digitChar (m / 600), digitChar (m / 60), ':',
      digitChar (m % 60 / 10), digitChar (m % 60)]⟩ =
    (⟨[digitChar (m / 600), digitChar (m / 60), ':',
      digitChar (m % 60 / 10), digitChar (m % 60)]⟩ : String)
  unfold pyStrip
  simp [List.dropWhile, digitChar_not_ws]

theorem fmtHHMM_ne_empty {m : Nat} (h : m < 1440) : fmtHHMM m ≠ "" := by
  rw [fmtHHMM_eq_of_lt h]
  intro hcontra
  have : ([] : List Char) = [digitChar (m / 600), digitChar (m / 60), ':',
      digitChar (m % 60 / 10), digitChar (m % 60)] := congrArg String.data hcontra.symm
  simp at this

theorem pyStrLt_fmtHHMM {m1 m2 : Nat} (h1 : m1 < 1440) (h2 : m2 < 1440) :
    pyStrLt (fmtHHMM m1) (fmtHHMM m2) = true ↔ m1 < m2 := by
  rw [fmtHHMM_eq_of_lt h1, fmtHHMM_eq_of_lt h2]
  show pyStrLtL
      [digitChar (m1 / 600), digitChar (m1 / 60), ':',
        digitChar (m1 % 60 / 10), digitChar (m1 % 60)]
      [digitChar (m2 / 600), digitChar (m2 / 60), ':',
        digitChar (m2 % 60 / 10), digitChar (m2 % 60)] = true ↔ m1 < m2
  have hcolon : ¬(':' < ':') := by decide
  simp only [pyStrLtL, if_neg hcolon, digitChar_lt_iff]
  split_ifs <;> simp_all <;> omega

theorem pyStrLe_fmtHHMM {m1 m2 : Nat} (h1 : m1 < 1440) (h2 : m2 < 1440) :
    pyStrLe (fmtHHMM m1) (fmtHHMM m2) = true ↔ m1 ≤ m2 := by
  have hlt := pyStrLt_fmtHHMM h2 h1
  unfold pyStrLe
  cases hb : pyStrLt (fmtHHMM m2) (fmtHHMM m1) <;> simp_all

theorem fmt_1300 : fmtHHMM 780 = "13:00" := by decide

theorem fmt_1400 : fmtHHMM 840 = "14:00" := by decide

/-- The lunch-filter test of `get_slots`, evaluated on a generated label:
it holds exactly when the slot's start lies in `[13:00, 14:00)`. -/
theorem lunch_test_fmtHHMM {m : Nat} (h : m < 1440) :
    (pyStrLe "13:00" (fmtHHMM m) && pyStrLt (fmtHHMM m) "14:00") = true ↔
      (780 ≤ m ∧ m < 840) := by
  rw [← fmt_1300, ← fmt_1400, Bool.and_eq_true,
    pyStrLe_fmtHHMM (by omega) h, pyStrLt_fmtHHMM h (by omega)]

/-! ### Slot loop lemmas -/

theorem slot_loop_lt : ∀ (fuel current e interval x : Nat),
    x ∈ slot_loop fuel current e interval → x < e := by
  intro fuel
  induction fuel with
  | zero => intro current e interval x hx; simp [slot_loop] at hx
  | succ n ih =>
    intro current e interval x hx
    simp only [slot_loop] at hx
    split_ifs at hx with hce
    · rcases List.mem_cons.mp hx with rfl | hx
      · exact hce
      · exact ih _ _ _ _ hx
    · simp at hx

theorem slot_loop_ge : ∀ (fuel current e interval x : Nat),
    x ∈ slot_loop fuel current e interval → current ≤ x := by
  intro fuel
  induction fuel with
  | zero => intro current e interval x hx; simp [slot_loop] at hx
  | succ n ih =>
    intro current e interval x hx
    simp only [slot_loop] at hx
    split_ifs at hx with hce
    · rcases List.mem_cons.mp hx with rfl | hx
      · exact le_refl x
      · exact le_trans (Nat.le_add_right _ _) (ih _ _ _ _ hx)
    · simp at hx

theorem slot_loop_mem (e interval : Nat) :
    ∀ (fuel current : Nat), e - current ≤ fuel → 0 < interval →
      ∀ x, x ∈ slot_loop fuel current e interval ↔
        ((∃ k, x = current + k * interval) ∧ x < e) := by
  intro fuel
  induction fuel with
  | zero =>
    intro current hfuel hi x
    simp only [slot_loop, List.not_mem_nil, false_iff]
    rintro ⟨⟨k, rfl⟩, hlt⟩
    have : current ≤ current + k * interval := Nat.le_add_right _ _
    omega
  | succ n ih =>
    intro current hfuel hi x
    simp only [slot_loop]
    split_ifs with hce
    · rw [List.mem_cons, ih (current + interval) (by omega) hi]
      constructor
      · rintro (rfl | ⟨⟨k, rfl⟩, hlt⟩)
        · exact ⟨⟨0, by ring⟩, hce⟩
        · exact ⟨⟨k + 1, by ring⟩, hlt⟩
      · rintro ⟨⟨k, rfl⟩, hlt⟩
        cases k with
        | zero => left; simp
        | succ j => right; exact ⟨⟨j, by ring⟩, hlt⟩
    · simp only [List.not_mem_nil, false_iff]
      rintro ⟨⟨k, rfl⟩, hlt⟩
      have : current ≤ current + k * interval := Nat.le_add_right _ _
      omega

theorem slot_loop_sorted (e interval : Nat) (hi : 0 < interval) :
    ∀ (fuel current : Nat), List.Pairwise (· < ·) (slot_loop fuel current e interval) := by
  intro fuel
  induction fuel with
  | zero => intro current; simp [slot_loop]
  | succ n ih =>
    intro current
    simp only [slot_loop]
    split_ifs with hce
    · rw [List.pairwise_cons]
      refine ⟨fun y hy => ?_, ih _⟩
      have := slot_loop_ge _ _ _ _ _ hy
      omega
    · simp

theorem slot_minutes_mem {start_t end_t interval x : Nat} (hi : 0 < interval) :
    x ∈ slot_minutes start_t end_t interval ↔
      ((∃ k, x = start_t + k * interval) ∧ x < end_t) := by
  unfold slot_minutes
  rw [if_pos hi]
  exact slot_loop_mem _ _ _ _ (le_refl _) hi x

theorem slot_minutes_lt {start_t end_t interval x : Nat}
    (hx : x ∈ slot_minutes start_t end_t interval) : x < end_t := by
  unfold slot_minutes at hx
  split_ifs at hx with hi
  · exact slot_loop_lt _ _ _ _ _ hx
  · simp at hx

theorem slot_minutes_ge {start_t end_t interval x : Nat}
    (hx : x ∈ slot_minutes start_t end_t interval) : start_t ≤ x := by
  unfold slot_minutes at hx
  split_ifs at hx with hi
  · exact slot_loop_ge _ _ _ _ _ hx
  · simp at hx

theorem slot_minutes_sorted {start_t end_t interval : Nat} (hi : 0 < interval) :
    List.Pairwise (· < ·) (slot_minutes start_t end_t interval) := by
  unfold slot_minutes
  rw [if_pos hi]
  exact slot_loop_sorted _ _ hi _ _

theorem slot_minutes_nil {start_t end_t interval : Nat} (h : end_t ≤ start_t) :
    slot_minutes start_t end_t interval = [] := by
  unfold slot_minutes
  split_ifs with hi
  · have : end_t - start_t = 0 := by omega
    rw [this]
    rfl
  · rfl

/-! ### Date resolver lemmas -/

theorem dayIndex_lt {s : String} {t : Nat} (h : dayIndex s = some t) : t < 7 := by
  unfold dayIndex at h
  split_ifs at h <;> simp_all <;> omega

/-- Claim C7: the Date Resolver returns the next occurrence of a recognized
weekday name (case-insensitively, via `capitalize`), with offset `0` when the
reference day already has that weekday, otherwise the smallest positive
offset, always within `[0, 6]`; an unrecognized name fails (`ValueError`,
i.e. `InvalidDayName`) instead of returning a date. -/
theorem c7_date_resolver (day_name : String) (now : Nat) :
    (dayIndex (pyCapitalize day_name) = none → get_day_date day_name now = none) ∧
    (∀ target, dayIndex (pyCapitalize day_name) = some target →
      ∃ k, k ≤ 6 ∧ get_day_date day_name now = some (now + k * 1440) ∧
        (now + k * 1440) / 1440 % 7 = target ∧
        (k = 0 ↔ now / 1440 % 7 = target) ∧
        ∀ j, j < k → (now + j * 1440) / 1440 % 7 ≠ target) := by
  constructor
  · intro hnone
    unfold get_day_date
    rw [hnone]
  · intro target htarget
    have htlt : target < 7 := dayIndex_lt htarget
    unfold get_day_date
    rw [htarget]
    refine ⟨(if (target : Int) - (now / 1440 % 7 : Nat) < 0 then
      (target : Int) - (now / 1440 % 7 : Nat) + 7 else
      (target : Int) - (now / 1440 % 7 : Nat)).toNat, ?_, rfl, ?_, ?_, ?_⟩
    · split_ifs <;> omega
    · split_ifs <;> omega
    · split_ifs <;> omega
    · intro j hj
      split_ifs at hj <;> omega

/-- Witness for C7 at a concrete input: looking up tuesday (lower-case) from
a Monday reference resolves one day ahead. -/
theorem c7_date_resolver_witness :
    ∃ k, k ≤ 6 ∧ get_day_date "tuesday" 0 = some (0 + k * 1440) ∧
      (0 + k * 1440) / 1440 % 7 = 1 ∧
      (k = 0 ↔ 0 / 1440 % 7 = 1) ∧
      ∀ j, j < k → (0 + j * 1440) / 1440 % 7 ≠ 1 :=
  (c7_date_resolver "tuesday" 0).2 1 (by decide)

/-- Claim C6: for every pair of bounds and positive interval, the Slot
Generator produces the strictly increasing, gap-free sequence
`workStart, workStart + interval, …` of exactly the values below `workEnd`,
and the empty sequence when `workStart ≥ workEnd`; `generate_time_slots`
emits precisely these values as `strftime` labels. -/
theorem c6_slot_generator (ws we interval : Nat) (hi : 0 < interval) :
    List.Pairwise (· < ·) (slot_minutes ws we interval) ∧
    (∀ x, x ∈ slot_minutes ws we interval ↔ ((∃ k, x = ws + k * interval) ∧ x < we)) ∧
    (we ≤ ws → slot_minutes ws we interval = []) ∧
    (∀ s e : String, parseHHMM s = some ws → parseHHMM e = some we →
      generate_time_slots s e interval = some ((slot_minutes ws we interval).map fmtHHMM)) :=
  ⟨slot_minutes_sorted hi, fun _ => slot_minutes_mem hi, fun h => slot_minutes_nil h,
   fun s e hs he => by unfold generate_time_slots; rw [hs, he]⟩

/-- Witness for C6 at the concrete grid 09:00–11:00, 30-minute interval. -/
theorem c6_slot_generator_witness :
    List.Pairwise (· < ·) (slot_minutes 540 660 30) ∧
    (∀ x, x ∈ slot_minutes 540 660 30 ↔ ((∃ k, x = 540 + k * 30) ∧ x < 660)) ∧
    (660 ≤ 540 → slot_minutes 540 660 30 = []) ∧
    (∀ s e : String, parseHHMM s = some 540 → parseHHMM e = some 660 →
      generate_time_slots s e 30 = some ((slot_minutes 540 660 30).map fmtHHMM)) :=
  c6_slot_generator 540 660 30 (by decide)

/-- Claim C3: on any generated slot label, the Availability Engine's
exclusion predicate `is_time_in_range` (slot.start < appt.end and
slot.end > appt.start), the Booking Validator's conflict predicate
(`not (slot.end <= appt.start or slot.start >= appt.end)`), and the spec's
half-open overlap rule all agree. -/
theorem c3_same_overlap_test (tod appt_start appt_end date_obj : Nat) (htod : tod < 1440) :
    (is_time_in_range (fmtHHMM tod) appt_start appt_end date_obj =
      booking_conflict (replaceTime date_obj tod) (replaceTime date_obj tod + 30)
        appt_start appt_end) ∧
    (is_time_in_range (fmtHHMM tod) appt_start appt_end date_obj = true ↔
      halfOpenOverlap (replaceTime date_obj tod) (replaceTime date_obj tod + 30)
        appt_start appt_end) := by
  unfold is_time_in_range
  rw [parseHHMM_fmtHHMM htod]
  unfold slot_in_range booking_conflict halfOpenOverlap
  constructor
  · by_cases h1 : replaceTime date_obj tod < appt_end <;>
      by_cases h2 : replaceTime date_obj tod + 30 > appt_start <;>
      simp_all
  · by_cases h1 : replaceTime date_obj tod < appt_end <;>
      by_cases h2 : replaceTime date_obj tod + 30 > appt_start <;>
      simp_all

/-- Witness for C3: a 09:00 slot against an appointment `[550, 580)` on
day 0. -/
theorem c3_same_overlap_test_witness :
    (is_time_in_range (fmtHHMM 540) 550 580 100 =
      booking_conflict (replaceTime 100 540) (replaceTime 100 540 + 30) 550 580) ∧
    (is_time_in_range (fmtHHMM 540) 550 580 100 = true ↔
      halfOpenOverlap (replaceTime 100 540) (replaceTime 100 540 + 30) 550 580) :=
  c3_same_overlap_test 540 550 580 100 (by decide)

/-- Claim C10: every label produced by the Slot Generator is the zero-padded
24-hour `strftime` rendering of its slot's minute value and parses back to it,
Python's lexicographic string comparison on two such labels coincides with
chronological comparison, and the string-based lunch test of `get_slots`
holds exactly for starts in `[13:00, 14:00)`. -/
theorem c10_labels_lex_chrono (ws we interval : Nat) (hwe : we ≤ 1440) :
    ∀ l1 ∈ (slot_minutes ws we interval).map fmtHHMM,
      ∃ m1, m1 < 1440 ∧ l1 = fmtHHMM m1 ∧ parseHHMM l1 = some m1 ∧
        (∀ l2 ∈ (slot_minutes ws we interval).map fmtHHMM, ∀ m2,
          parseHHMM l2 = some m2 → (pyStrLt l1 l2 = true ↔ m1 < m2)) ∧
        ((pyStrLe "13:00" l1 && pyStrLt l1 "14:00") = true ↔ (780 ≤ m1 ∧ m1 < 840)) := by
  intro l1 hl1
  obtain ⟨m1, hm1mem, rfl⟩ := List.mem_map.mp hl1
  have hm1lt : m1 < 1440 := lt_of_lt_of_le (slot_minutes_lt hm1mem) hwe
  refine ⟨m1, hm1lt, rfl, parseHHMM_fmtHHMM hm1lt, ?_, lunch_test_fmtHHMM hm1lt⟩
  intro l2 hl2 m2 hparse
  obtain ⟨m2', hm2mem, rfl⟩ := List.mem_map.mp hl2
  have hm2lt : m2' < 1440 := lt_of_lt_of_le (slot_minutes_lt hm2mem) hwe
  rw [parseHHMM_fmtHHMM hm2lt] at hparse
  obtain rfl : m2' = m2 := by injection hparse
  exact pyStrLt_fmtHHMM hm1lt hm2lt

/-- Witness for C10 on the concrete 09:00–11:00 grid at label 09:30. -/
theorem c10_labels_lex_chrono_witness :
    ∃ m1, m1 < 1440 ∧ "09:30" = fmtHHMM m1 ∧ parseHHMM "09:30" = some m1 ∧
      (∀ l2 ∈ (slot_minutes 540 660 30).map fmtHHMM, ∀ m2,
        parseHHMM l2 = some m2 → (pyStrLt "09:30" l2 = true ↔ m1 < m2)) ∧
      ((pyStrLe "13:00" "09:30" && pyStrLt "09:30" "14:00") = true ↔ (780 ≤ m1 ∧ m1 < 840)) :=
  c10_labels_lex_chrono 540 660 30 (by decide) "09:30" (by decide)

/-- Counterexample to C4 as stated: with working hours 08:45–17:00 the
Availability Engine emits the slot 12:45, whose half-open interval
`[12:45, 13:15)` overlaps the lunch window `[13:00, 14:00)`; the lunch
filter does not remove it. -/
theorem c4_counterexample :
    get_slots [("Monday", ⟨"Dr. A", "08:45", "17:00"⟩)] [] "Monday" 0 =
      .ok "Dr. A" "Monday"
        ["08:45", "09:15", "09:45", "10:15", "10:45", "11:15", "11:45", "12:15",
         "12:45", "14:15", "14:45", "15:15", "15:45", "16:15", "16:45"] ∧
    "12:45" ∈
      ["08:45", "09:15", "09:45", "10:15", "10:45", "11:15", "11:45", "12:15",
       "12:45", "14:15", "14:45", "15:15", "15:45", "16:15", "16:45"] ∧
    parseHHMM "12:45" = some 765 ∧
    halfOpenOverlap 765 (765 + 30) 780 840 := by
  refine ⟨by decide, by decide, by decide, ?_⟩
  unfold halfOpenOverlap
  exact ⟨by decide, by decide⟩

/-- Claim C4, amended: the lunch-filter step removes exactly the slots whose
START time lies in `[13:00, 14:00)`; a slot whose interval merely overlaps
the lunch window (such as one starting at 12:45) is NOT removed by this
step. -/
theorem c4_lunch_filter_amended (ws we interval : Nat) (hwe : we ≤ 1440) :
    lunch_filter ((slot_minutes ws we interval).map fmtHHMM) =
      ((slot_minutes ws we interval).filter
        (fun m => !(decide (780 ≤ m) && decide (m < 840)))).map fmtHHMM := by
  unfold lunch_filter
  rw [List.filter_map]
  congr 1
  apply List.filter_congr
  intro m hm
  have hmlt : m < 1440 := lt_of_lt_of_le (slot_minutes_lt hm) hwe
  have h1 := lunch_test_fmtHHMM hmlt
  simp only [Function.comp]
  have heq : (pyStrLe "13:00" (fmtHHMM m) && pyStrLt (fmtHHMM m) "14:00") =
      (decide (780 ≤ m) && decide (m < 840)) := by
    rw [Bool.eq_iff_iff, h1]
    simp [Bool.and_eq_true, decide_eq_true_eq]
  rw [heq]

/-- Witness for C4 (amended) on the 08:45–17:00 grid. -/
theorem c4_lunch_filter_amended_witness :
    lunch_filter ((slot_minutes 525 1020 30).map fmtHHMM) =
      ((slot_minutes 525 1020 30).filter
        (fun m => !(decide (780 ≤ m) && decide (m < 840)))).map fmtHHMM :=
  c4_lunch_filter_amended 525 1020 30 (by decide)

/-! ### Branch equations for the booking validator -/

theorem lb_incomplete {scheds : List (String × Schedule)} {apts : List Appointment}
    {req : BookingRequest} {now : Nat}
    (h : pyStrip req.name = "" ∨ pyStrip req.doctor = "" ∨
      pyCapitalize req.day = "" ∨ pyStrip req.slot = "") :
    log_booking_body (.ok scheds) (.ok apts) req now = .ok (.incompleteRequest, none) := by
  unfold log_booking_body
  rw [if_pos h]

theorem lb_closed {scheds : List (String × Schedule)} {apts : List Appointment}
    {req : BookingRequest} {now : Nat}
    (hni : ¬(pyStrip req.name = "" ∨ pyStrip req.doctor = "" ∨
      pyCapitalize req.day = "" ∨ pyStrip req.slot = ""))
    (hlook : List.lookup (pyCapitalize req.day) scheds = none) :
    log_booking_body (.ok scheds) (.ok apts) req now =
      .ok (.clinicClosed (pyCapitalize req.day), none) := by
  unfold log_booking_body
  rw [if_neg hni]
  simp only [hlook]

theorem lb_mismatch {scheds : List (String × Schedule)} {apts : List Appointment}
    {req : BookingRequest} {now : Nat} {sched : Schedule}
    (hni : ¬(pyStrip req.name = "" ∨ pyStrip req.doctor = "" ∨
      pyCapitalize req.day = "" ∨ pyStrip req.slot = ""))
    (hlook : List.lookup (pyCapitalize req.day) scheds = some sched)
    (hdoc : sched.doctor ≠ pyStrip req.doctor) :
    log_booking_body (.ok scheds) (.ok apts) req now =
      .ok (.doctorDayMismatch sched.doctor, none) := by
  unfold log_booking_body
  rw [if_neg hni]
  simp only [hlook, if_pos hdoc]

theorem lb_malformed {scheds : List (String × Schedule)} {apts : List Appointment}
    {req : BookingRequest} {now : Nat} {sched : Schedule}
    (hni : ¬(pyStrip req.name = "" ∨ pyStrip req.doctor = "" ∨
      pyCapitalize req.day = "" ∨ pyStrip req.slot = ""))
    (hlook : List.lookup (pyCapitalize req.day) scheds = some sched)
    (hdoc : sched.doctor = pyStrip req.doctor)
    (hparse : parseHHMM (pyStrip req.slot) = none) :
    log_booking_body (.ok scheds) (.ok apts) req now =
      .ok (.malformedTime (pyStrip req.slot), none) := by
  unfold log_booking_body
  rw [if_neg hni]
  simp only [hlook]
  rw [if_neg (fun hne => hne hdoc)]
  simp only [hparse]

theorem lb_no_day {scheds : List (String × Schedule)} {apts : List Appointment}
    {req : BookingRequest} {now : Nat} {sched : Schedule} {slot_tod : Nat}
    (hni : ¬(pyStrip req.name = "" ∨ pyStrip req.doctor = "" ∨
      pyCapitalize req.day = "" ∨ pyStrip req.slot = ""))
    (hlook : List.lookup (pyCapitalize req.day) scheds = some sched)
    (hdoc : sched.doctor = pyStrip req.doctor)
    (hparse : parseHHMM (pyStrip req.slot) = some slot_tod)
    (hdd : get_day_date (pyCapitalize req.day) now = none) :
    log_booking_body (.ok scheds) (.ok apts) req now = .error () := by
  unfold log_booking_body
  rw [if_neg hni]
  simp only [hlook]
  rw [if_neg (fun hne => hne hdoc)]
  simp only [hparse, hdd]

theorem lb_main {scheds : List (String × Schedule)} (apts : List Appointment)
    (req : BookingRequest) {now : Nat} {sched : Schedule}
    {slot_tod day_date work_start work_end : Nat}
    (hni : ¬(pyStrip req.name = "" ∨ pyStrip req.doctor = "" ∨
      pyCapitalize req.day = "" ∨ pyStrip req.slot = ""))
    (hlook : List.lookup (pyCapitalize req.day) scheds = some sched)
    (hdoc : sched.doctor = pyStrip req.doctor)
    (hparse : parseHHMM (pyStrip req.slot) = some slot_tod)
    (hdd : get_day_date (pyCapitalize req.day) now = some day_date)
    (hws : parseHHMM sched.start_time = some work_start)
    (hwe : parseHHMM sched.end_time = some work_end) :
    log_booking_body (.ok scheds) (.ok apts) req now =
      (if ¬(work_start ≤ slot_tod ∧ slot_tod < work_end) ∨
          ¬(work_start < (slot_tod + 30) % 1440 ∧ (slot_tod + 30) % 1440 ≤ work_end) then
        .ok (.outsideWorkingHours, none)
      else if (780 ≤ slot_tod ∧ slot_tod < 840) ∨
          (780 < (slot_tod + 30) % 1440 ∧ (slot_tod + 30) % 1440 ≤ 840) then
        .ok (.lunchBreak, none)
      else if conflict_check apts day_date slot_tod then
        .ok (.slotTaken, none)
      else
        .ok (.success ⟨pyStrip req.name, replaceTime day_date slot_tod,
          replaceTime day_date slot_tod + 30⟩,
          some (apts ++ [⟨pyStrip req.name, replaceTime day_date slot_tod,
            replaceTime day_date slot_tod + 30⟩]))) := by
  unfold log_booking_body
  rw [if_neg hni]
  simp only [hlook]
  rw [if_neg (fun hne => hne hdoc)]
  simp only [hparse, hdd, hws, hwe]

theorem lb_bad_ws {scheds : List (String × Schedule)} {apts : List Appointment}
    {req : BookingRequest} {now : Nat} {sched : Schedule} {slot_tod day_date : Nat}
    (hni : ¬(pyStrip req.name = "" ∨ pyStrip req.doctor = "" ∨
      pyCapitalize req.day = "" ∨ pyStrip req.slot = ""))
    (hlook : List.lookup (pyCapitalize req.day) scheds = some sched)
    (hdoc : sched.doctor = pyStrip req.doctor)
    (hparse : parseHHMM (pyStrip req.slot) = some slot_tod)
    (hdd : get_day_date (pyCapitalize req.day) now = some day_date)
    (hws : parseHHMM sched.start_time = none) :
    log_booking_body (.ok scheds) (.ok apts) req now = .error () := by
  unfold log_booking_body
  rw [if_neg hni]
  simp only [hlook]
  rw [if_neg (fun hne => hne hdoc)]
  simp only [hparse, hdd, hws]

theorem lb_bad_we {scheds : List (String × Schedule)} {apts : List Appointment}
    {req : BookingRequest} {now : Nat} {sched : Schedule} {slot_tod day_date : Nat}
    (hni : ¬(pyStrip req.name = "" ∨ pyStrip req.doctor = "" ∨
      pyCapitalize req.day = "" ∨ pyStrip req.slot = ""))
    (hlook : List.lookup (pyCapitalize req.day) scheds = some sched)
    (hdoc : sched.doctor = pyStrip req.doctor)
    (hparse : parseHHMM (pyStrip req.slot) = some slot_tod)
    (hdd : get_day_date (pyCapitalize req.day) now = some day_date)
    (hwe : parseHHMM sched.end_time = none) :
    log_booking_body (.ok scheds) (.ok apts) req now = .error () := by
  unfold log_booking_body
  rw [if_neg hni]
  simp only [hlook]
  rw [if_neg (fun hne => hne hdoc)]
  simp only [hparse, hdd, hwe]
  rcases parseHHMM sched.start_time with _ | ws <;> rfl

/-- Exhaustive classification of `log_booking_body` on readable stores:
either a structured rejection without a store write, a propagating (caught)
exception without a store write, or the success path that appends exactly
the new record after a negative conflict check. -/
theorem log_booking_body_cases (scheds : List (String × Schedule)) (apts : List Appointment)
    (req : BookingRequest) (now : Nat) :
    (∃ o, log_booking_body (.ok scheds) (.ok apts) req now = .ok (o, none) ∧
      ∀ a, o ≠ BookingOutcome.success a) ∨
    (log_booking_body (.ok scheds) (.ok apts) req now = .error ()) ∨
    (∃ day_date slot_tod,
      parseHHMM (pyStrip req.slot) = some slot_tod ∧
      get_day_date (pyCapitalize req.day) now = some day_date ∧
      conflict_check apts day_date slot_tod = false ∧
      log_booking_body (.ok scheds) (.ok apts) req now =
        .ok (.success ⟨pyStrip req.name, replaceTime day_date slot_tod,
            replaceTime day_date slot_tod + 30⟩,
          some (apts ++ [⟨pyStrip req.name, replaceTime day_date slot_tod,
            replaceTime day_date slot_tod + 30⟩]))) := by
  by_cases hni : (pyStrip req.name = "" ∨ pyStrip req.doctor = "" ∨
      pyCapitalize req.day = "" ∨ pyStrip req.slot = "")
  · exact Or.inl ⟨_, lb_incomplete hni, fun a => by simp⟩
  rcases hlook : List.lookup (pyCapitalize req.day) scheds with _ | sched
  · exact Or.inl ⟨_, lb_closed hni hlook, fun a => by simp⟩
  by_cases hdoc : sched.doctor = pyStrip req.doctor
  case neg => exact Or.inl ⟨_, lb_mismatch hni hlook hdoc, fun a => by simp⟩
  rcases hparse : parseHHMM (pyStrip req.slot) with _ | slot_tod
  · exact Or.inl ⟨_, lb_malformed hni hlook hdoc hparse, fun a => by simp⟩
  rcases hdd : get_day_date (pyCapitalize req.day) now with _ | day_date
  · exact Or.inr (Or.inl (lb_no_day hni hlook hdoc hparse hdd))
  rcases hws : parseHHMM sched.start_time with _ | work_start
  · exact Or.inr (Or.inl (lb_bad_ws hni hlook hdoc hparse hdd hws))
  rcases hwe : parseHHMM sched.end_time with _ | work_end
  · exact Or.inr (Or.inl (lb_bad_we hni hlook hdoc hparse hdd hwe))
  rw [lb_main apts req hni hlook hdoc hparse hdd hws hwe]
  split_ifs with h1 h2 h3
  · exact Or.inl ⟨_, rfl, fun a => by simp⟩
  · exact Or.inl ⟨_, rfl, fun a => by simp⟩
  · exact Or.inl ⟨_, rfl, fun a => by simp⟩
  · refine Or.inr (Or.inr ⟨day_date, slot_tod, rfl, rfl, ?_, rfl⟩)
    exact Bool.not_eq_true _ ▸ h3

/-- Claim C9: a rejected (or internally failing) booking request leaves the
appointment store unchanged; a successful commit appends exactly one record
`{patientName, slotStart, slotStart + 30}` after the existing records. -/
theorem c9_rejection_atomicity (scheds : List (String × Schedule)) (apts : List Appointment)
    (req : BookingRequest) (now : Nat) :
    (∀ a, (log_booking scheds apts req now).1 = .success a →
      (log_booking scheds apts req now).2 = apts ++ [a] ∧
      a.name = pyStrip req.name ∧ a.end_time = a.start_time + 30) ∧
    ((∀ a, (log_booking scheds apts req now).1 ≠ .success a) →
      (log_booking scheds apts req now).2 = apts) := by
  rcases log_booking_body_cases scheds apts req now with
    ⟨o, hbody, hno⟩ | hbody | ⟨day_date, slot_tod, hparse, hdd, hconf, hbody⟩
  · unfold log_booking
    rw [hbody]
    exact ⟨fun a ha => absurd ha (hno a), fun _ => rfl⟩
  · unfold log_booking
    rw [hbody]
    exact ⟨fun a ha => absurd ha (by simp), fun _ => rfl⟩
  · unfold log_booking
    rw [hbody]
    constructor
    · intro a ha
      obtain rfl : _ = a := (BookingOutcome.success.injEq _ _).mp ha
      exact ⟨rfl, rfl, rfl⟩
    · intro hns
      exact absurd rfl (hns _)

/-- Witness for C9: the empty-fields request is rejected and the store stays
empty. -/
theorem c9_rejection_atomicity_witness :
    (log_booking [] [] ⟨"", "", "", ""⟩ 0).2 = ([] : List Appointment) :=
  (c9_rejection_atomicity [] [] ⟨"", "", "", ""⟩ 0).2
    (fun a h => BookingOutcome.noConfusion
      (show BookingOutcome.incompleteRequest = BookingOutcome.success a from h))

/-- A passing conflict check certifies the new record against every stored
same-date record. -/
theorem conflict_check_false {apts : List Appointment} {day_date slot_tod : Nat} (nm : String)
    (hconf : conflict_check apts day_date slot_tod = false) (htod : slot_tod < 1440) :
    ∀ ap ∈ apts,
      sameDateNoOverlap ap ⟨nm, replaceTime day_date slot_tod,
        replaceTime day_date slot_tod + 30⟩ := by
  intro ap hap
  have h := List.any_eq_false.mp hconf ap hap
  unfold sameDateNoOverlap
  simp only []
  intro hdate
  by_cases hd : ap.start_time / 1440 = day_date / 1440
  · have hbc : booking_conflict (replaceTime day_date slot_tod)
        (replaceTime day_date slot_tod + 30) ap.start_time ap.end_time = false := by
      cases hb : booking_conflict (replaceTime day_date slot_tod)
          (replaceTime day_date slot_tod + 30) ap.start_time ap.end_time
      · rfl
      · exact absurd (by simp [hd, hb]) h
    unfold booking_conflict at hbc
    simp only [Bool.not_eq_false', Bool.or_eq_true, decide_eq_true_eq] at hbc
    omega
  · have hcon : ap.start_time / 1440 = day_date / 1440 := by
      unfold replaceTime at hdate
      omega
    exact absurd hcon hd

theorem log_booking_preserves {scheds : List (String × Schedule)} {apts : List Appointment}
    {req : BookingRequest} {now : Nat} (h : apts.Pairwise sameDateNoOverlap) :
    ((log_booking scheds apts req now).2).Pairwise sameDateNoOverlap := by
  rcases log_booking_body_cases scheds apts req now with
    ⟨o, hbody, _⟩ | hbody | ⟨dd, tod, hparse, hdd, hconf, hbody⟩
  · unfold log_booking
    rw [hbody]
    exact h
  · unfold log_booking
    rw [hbody]
    exact h
  · unfold log_booking
    rw [hbody]
    rw [List.pairwise_append]
    refine ⟨h, List.pairwise_singleton _ _, ?_⟩
    intro a ha b hb
    rw [List.mem_singleton] at hb
    subst hb
    exact conflict_check_false _ hconf (parseHHMM_lt hparse) a ha

/-- Claim C1: processing any sequence of booking requests sequentially from a
store without same-date overlaps yields a store without same-date overlaps
(no double-booking). -/
theorem c1_no_double_booking (scheds : List (String × Schedule))
    (reqs : List (BookingRequest × Nat)) (init : List Appointment)
    (hinit : init.Pairwise sameDateNoOverlap) :
    (reqs.foldl (fun apts rn => (log_booking scheds apts rn.1 rn.2).2) init).Pairwise
      sameDateNoOverlap := by
  induction reqs generalizing init with
  | nil => exact hinit
  | cons r rest ih => exact ih _ (log_booking_preserves hinit)

/-- Witness for C1: two competing requests for Monday 09:00 processed from
the empty store. -/
theorem c1_no_double_booking_witness :
    (([(⟨"Alice", "Dr. A", "Monday", "09:00"⟩, 0), (⟨"Bob", "Dr. A", "Monday", "09:00"⟩, 0)] :
        List (BookingRequest × Nat)).foldl
      (fun apts rn =>
        (log_booking [("Monday", ⟨"Dr. A", "09:00", "17:00"⟩)] apts rn.1 rn.2).2)
      []).Pairwise sameDateNoOverlap :=
  c1_no_double_booking [("Monday", ⟨"Dr. A", "09:00", "17:00"⟩)]
    [(⟨"Alice", "Dr. A", "Monday", "09:00"⟩, 0), (⟨"Bob", "Dr. A", "Monday", "09:00"⟩, 0)]
    [] List.Pairwise.nil

/-- Counterexample to C5 as stated: under the (pathological but accepted)
schedule 00:00–23:59, the 23:45 request passes steps 1–4, its unwrapped end
`23:45 + 30 min = 24:15` lies past `workEnd = 23:59`, yet the Booking
Validator does not reject it — `slot_end_time` is computed with `.time()`,
which wraps past midnight to 00:15, and the booking succeeds. -/
theorem c5_counterexample :
    (log_booking [("Monday", ⟨"Dr. X", "00:00", "23:59"⟩)] []
      ⟨"Bob", "Dr. X", "Monday", "23:45"⟩ 0).1 =
        .success ⟨"Bob", 1425, 1455⟩ ∧
    (log_booking [("Monday", ⟨"Dr. X", "00:00", "23:59"⟩)] []
      ⟨"Bob", "Dr. X", "Monday", "23:45"⟩ 0).1 ≠ .outsideWorkingHours ∧
    parseHHMM "23:45" = some 1425 ∧ parseHHMM "23:59" = some 1439 ∧
    ¬(1425 + 30 ≤ 1439) := by
  refine ⟨by decide, by decide, by decide, by decide, by decide⟩

/-- Claim C5, amended: for a request passing steps 1–5 (fields present, day
scheduled, doctor matching, slot and schedule times parsing, date
resolving), the Validator rejects with `OutsideWorkingHours` exactly when
`not (workStart ≤ slotStart < workEnd and workStart < slotEnd ≤ workEnd)`
where `slotEnd` is the TIME-OF-DAY of `slotStart + 30 min`, i.e. reduced
modulo 24 h; for slots with `slotStart + 30 ≤ 24:00` this is the claim's
original rule. -/
theorem c5_working_hours_amended (scheds : List (String × Schedule)) (apts : List Appointment)
    (req : BookingRequest) (now : Nat) (sched : Schedule)
    (slot_tod day_date work_start work_end : Nat)
    (hni : ¬(pyStrip req.name = "" ∨ pyStrip req.doctor = "" ∨
      pyCapitalize req.day = "" ∨ pyStrip req.slot = ""))
    (hlook : List.lookup (pyCapitalize req.day) scheds = some sched)
    (hdoc : sched.doctor = pyStrip req.doctor)
    (hparse : parseHHMM (pyStrip req.slot) = some slot_tod)
    (hdd : get_day_date (pyCapitalize req.day) now = some day_date)
    (hws : parseHHMM sched.start_time = some work_start)
    (hwe : parseHHMM sched.end_time = some work_end) :
    ((log_booking scheds apts req now).1 = .outsideWorkingHours ↔
      ¬(work_start ≤ slot_tod ∧ slot_tod < work_end ∧
        work_start < (slot_tod + 30) % 1440 ∧ (slot_tod + 30) % 1440 ≤ work_end)) ∧
    (slot_tod + 30 ≤ 1440 → work_end < 1440 →
      ((log_booking scheds apts req now).1 = .outsideWorkingHours ↔
        ¬(work_start ≤ slot_tod ∧ slot_tod < work_end ∧
          work_start < slot_tod + 30 ∧ slot_tod + 30 ≤ work_end))) := by
  have hmain := lb_main apts req hni hlook hdoc hparse hdd hws hwe
  unfold log_booking
  rw [hmain]
  constructor
  · split_ifs with h1 h2 h3 <;> simp <;> omega
  · intro hnw hwend
    split_ifs with h1 h2 h3 <;> simp <;> omega

/-- Witness for C5 (amended): the 08:00 request against the 09:00–17:00
schedule is rejected as outside working hours. -/
theorem c5_working_hours_amended_witness :
    ((log_booking [("Monday", ⟨"Dr. A", "09:00", "17:00"⟩)] []
        ⟨"Alice", "Dr. A", "Monday", "08:00"⟩ 0).1 = .outsideWorkingHours ↔
      ¬(540 ≤ 480 ∧ 480 < 1020 ∧
        540 < (480 + 30) % 1440 ∧ (480 + 30) % 1440 ≤ 1020)) ∧
    (480 + 30 ≤ 1440 → 1020 < 1440 →
      ((log_booking [("Monday", ⟨"Dr. A", "09:00", "17:00"⟩)] []
          ⟨"Alice", "Dr. A", "Monday", "08:00"⟩ 0).1 = .outsideWorkingHours ↔
        ¬(540 ≤ 480 ∧ 480 < 1020 ∧ 540 < 480 + 30 ∧ 480 + 30 ≤ 1020))) :=
  c5_working_hours_amended [("Monday", ⟨"Dr. A", "09:00", "17:00"⟩)] []
    ⟨"Alice", "Dr. A", "Monday", "08:00"⟩ 0 ⟨"Dr. A", "09:00", "17:00"⟩
    480 0 540 1020 (by decide) (by decide) (by decide) (by decide) (by decide)
    (by decide) (by decide)

/-- Counterexample to C8 as stated: an unavailable appointments store makes
`get_slots_body` raise (the `HTTPException` of `load_json`), but the
endpoint's `except Exception` handler catches it and returns the same
generic in-band "having trouble" outcome that any internal error produces
(third conjunct: an unparsable schedule time yields the identical outcome),
instead of letting it propagate as a server-error response; `log_booking`
behaves the same way. -/
theorem c8_counterexample :
    get_slots_body (.ok [("Monday", ⟨"Dr. A", "09:00", "17:00"⟩)]) (.error ())
      "Monday" 0 = .error () ∧
    get_slots_endpoint (.ok [("Monday", ⟨"Dr. A", "09:00", "17:00"⟩)]) (.error ())
      "Monday" 0 = .trouble ∧
    get_slots_endpoint (.ok [("Monday", ⟨"Dr. A", "xx:y", "17:00"⟩)]) (.ok [])
      "Monday" 0 = .trouble ∧
    log_booking_endpoint (.ok [("Monday", ⟨"Dr. A", "09:00", "17:00"⟩)]) (.error ())
      ⟨"Alice", "Dr. A", "Monday", "09:00"⟩ 0 = (.trouble, .error ()) :=
  ⟨rfl, rfl, rfl, rfl⟩

/-- Claim C8, amended: EVERY error kind, StoreUnavailable included, is
recovered at the availability/booking request boundary: the blanket handler
maps any raised exception (store failure included) to the generic `trouble`
outcome with the store untouched, and passes every structured outcome
through unchanged; no error propagates out of these two endpoints. -/
theorem c8_error_recovery_amended (schedules : Except Unit (List (String × Schedule)))
    (store : Except Unit (List Appointment)) (day : String) (req : BookingRequest)
    (now : Nat) :
    (get_slots_body schedules store day now = .error () →
      get_slots_endpoint schedules store day now = .trouble) ∧
    (∀ o, get_slots_body schedules store day now = .ok o →
      get_slots_endpoint schedules store day now = o) ∧
    (log_booking_body schedules store req now = .error () →
      log_booking_endpoint schedules store req now = (.trouble, store)) ∧
    (∀ o, log_booking_body schedules store req now = .ok (o, none) →
      log_booking_endpoint schedules store req now = (o, store)) ∧
    (∀ o newList, log_booking_body schedules store req now = .ok (o, some newList) →
      log_booking_endpoint schedules store req now = (o, .ok newList)) := by
  refine ⟨fun h => ?_, fun o h => ?_, fun h => ?_, fun o h => ?_, fun o newList h => ?_⟩ <;>
    first
      | (unfold get_slots_endpoint; rw [h])
      | (unfold log_booking_endpoint; rw [h])

/-- Witness for C8 (amended): an unavailable schedules store is mapped to
the generic outcome. -/
theorem c8_error_recovery_amended_witness :
    get_slots_endpoint (.error ()) (.ok []) "Monday" 0 = .trouble :=
  (c8_error_recovery_amended (.error ()) (.ok []) "Monday" ⟨"", "", "", ""⟩ 0).1 rfl

/-! ### Availability engine lemmas -/

theorem gs_ok_inv {scheds : List (String × Schedule)} {apts : List Appointment}
    {day : String} {now : Nat} {doc dayC : String} {slots : List String}
    {sched : Schedule} {ws we : Nat}
    (hok : get_slots scheds apts day now = .ok doc dayC slots)
    (hsched : List.lookup (pyCapitalize day) scheds = some sched)
    (hws : parseHHMM sched.start_time = some ws)
    (hwe : parseHHMM sched.end_time = some we) :
    ∃ dd, get_day_date (pyCapitalize day) now = some dd ∧
      doc = sched.doctor ∧ dayC = pyCapitalize day ∧
      slots = conflict_filter (lunch_filter ((slot_minutes ws we 30).map fmtHHMM)) apts dd := by
  unfold get_slots get_slots_endpoint get_slots_body generate_time_slots at hok
  simp only [hsched, hws, hwe] at hok
  rcases hdd : get_day_date (pyCapitalize day) now with _ | dd <;> rw [hdd] at hok
  · simp at hok
  · simp only [SlotsOutcome.ok.injEq] at hok
    exact ⟨dd, rfl, hok.1.symm, hok.2.1.symm, hok.2.2.symm⟩

theorem conflict_filter_mem :
    ∀ (apts : List Appointment) (l : List String) (dd : Nat) (slot : String),
      slot ∈ conflict_filter l apts dd →
      slot ∈ l ∧ ∀ ap ∈ apts, ap.start_time / 1440 = dd / 1440 →
        is_time_in_range slot ap.start_time ap.end_time dd = false := by
  intro apts
  induction apts with
  | nil =>
    intro l dd slot h
    exact ⟨h, by simp⟩
  | cons ap rest ih =>
    intro l dd slot h
    unfold conflict_filter at h
    rw [List.foldl_cons] at h
    obtain ⟨hmem, hrest⟩ := ih _ dd slot h
    by_cases hd : ap.start_time / 1440 = dd / 1440
    · rw [if_pos hd] at hmem
      rw [List.mem_filter] at hmem
      obtain ⟨hl, hpred⟩ := hmem
      refine ⟨hl, ?_⟩
      intro b hb hbdate
      rcases List.mem_cons.mp hb with rfl | hb
      · simpa using hpred
      · exact hrest b hb hbdate
    · rw [if_neg hd] at hmem
      refine ⟨hmem, ?_⟩
      intro b hb hbdate
      rcases List.mem_cons.mp hb with rfl | hb
      · exact absurd hbdate hd
      · exact hrest b hb hbdate

/-- Claim C2, amended: a slot offered by the Availability Engine can
immediately be booked for the same day and doctor — provided the schedule's
working bounds lie on the 30-minute grid (otherwise the engine offers slots
the validator rejects), its doctor name is non-empty with no surrounding
whitespace, and the patient name is non-empty after trimming. -/
theorem c2_round_trip_amended (scheds : List (String × Schedule)) (apts : List Appointment)
    (day name : String) (now : Nat) (doc dayC slot : String) (slots : List String)
    (sched : Schedule) (ws we : Nat)
    (hok : get_slots scheds apts day now = .ok doc dayC slots)
    (hslot : slot ∈ slots)
    (hsched : List.lookup (pyCapitalize day) scheds = some sched)
    (hws : parseHHMM sched.start_time = some ws)
    (hwe : parseHHMM sched.end_time = some we)
    (hws30 : ws % 30 = 0) (hwe30 : we % 30 = 0)
    (hdocs : pyStrip sched.doctor = sched.doctor) (hdocne : sched.doctor ≠ "")
    (hname : pyStrip name ≠ "") :
    ∃ a, (log_booking scheds apts ⟨name, doc, day, slot⟩ now).1 = .success a := by
  obtain ⟨dd, hdd, hdoc_eq, hdayC, hslots⟩ := gs_ok_inv hok hsched hws hwe
  subst hdoc_eq
  subst hslots
  obtain ⟨hlf, hconf_all⟩ := conflict_filter_mem apts _ dd slot hslot
  rw [lunch_filter, List.mem_filter] at hlf
  obtain ⟨hmap, hkeep⟩ := hlf
  obtain ⟨m, hm_mem, rfl⟩ := List.mem_map.mp hmap
  have hwe1440 : we < 1440 := parseHHMM_lt hwe
  have hm_we : m < we := slot_minutes_lt hm_mem
  have hm1440 : m < 1440 := lt_trans hm_we hwe1440
  have hm_ge : ws ≤ m := slot_minutes_ge hm_mem
  obtain ⟨⟨k, hk⟩, -⟩ := (slot_minutes_mem (by decide : (0:Nat) < 30)).mp hm_mem
  have hm30 : m + 30 ≤ we := by omega
  have hmod : (m + 30) % 1440 = m + 30 := Nat.mod_eq_of_lt (by omega)
  have hlunch_no : ¬(780 ≤ m ∧ m < 840) := by
    intro hcon
    have hbt := (lunch_test_fmtHHMM hm1440).mpr hcon
    rw [hbt] at hkeep
    exact absurd hkeep (by decide)
  have hday_ne : pyCapitalize day ≠ "" := by
    intro heq
    rw [heq] at hdd
    exact Option.noConfusion hdd
  have hslot_strip : pyStrip (fmtHHMM m) = fmtHHMM m := pyStrip_fmtHHMM hm1440
  have hslot_ne : fmtHHMM m ≠ "" := fmtHHMM_ne_empty hm1440
  have hni : ¬(pyStrip name = "" ∨ pyStrip sched.doctor = "" ∨
      pyCapitalize day = "" ∨ pyStrip (fmtHHMM m) = "") := by
    push_neg
    refine ⟨hname, ?_, hday_ne, ?_⟩
    · rw [hdocs]
      exact hdocne
    · rw [hslot_strip]
      exact hslot_ne
  have hparse_req : parseHHMM (pyStrip (fmtHHMM m)) = some m := by
    rw [hslot_strip]
    exact parseHHMM_fmtHHMM hm1440
  have hmain := lb_main apts ⟨name, sched.doctor, day, fmtHHMM m⟩
    hni hsched hdocs.symm hparse_req hdd hws hwe
  have hOWH : ¬(¬(ws ≤ m ∧ m < we) ∨
      ¬(ws < (m + 30) % 1440 ∧ (m + 30) % 1440 ≤ we)) := by
    rw [hmod]
    omega
  have hlunchc : ¬((780 ≤ m ∧ m < 840) ∨
      (780 < (m + 30) % 1440 ∧ (m + 30) % 1440 ≤ 840)) := by
    rw [hmod]
    omega
  have hconfc : conflict_check apts dd m = false := by
    rw [conflict_check]
    rw [List.any_eq_false]
    intro ap hap
    by_cases hdate : ap.start_time / 1440 = dd / 1440
    · have hr := hconf_all ap hap hdate
      unfold is_time_in_range at hr
      rw [parseHHMM_fmtHHMM hm1440] at hr
      unfold slot_in_range at hr
      rw [Bool.and_eq_false_iff, decide_eq_false_iff_not, decide_eq_false_iff_not] at hr
      unfold booking_conflict
      intro hcontra
      rw [Bool.and_eq_true] at hcontra
      obtain ⟨-, hnb⟩ := hcontra
      rw [Bool.not_eq_true', Bool.or_eq_false_iff, decide_eq_false_iff_not,
        decide_eq_false_iff_not] at hnb
      unfold replaceTime at hr hnb
      omega
    · simp [hdate]
  have hfinal : (log_booking scheds apts ⟨name, sched.doctor, day, fmtHHMM m⟩ now).1 =
      .success ⟨pyStrip name, replaceTime dd m, replaceTime dd m + 30⟩ := by
    unfold log_booking
    rw [hmain, if_neg hOWH, if_neg hlunchc, if_neg (by simp [hconfc])]
  exact ⟨_, hfinal⟩

/-- Counterexample to C2 as stated: with working hours 09:15–17:00 the
Availability Engine lists 16:45, but booking 16:45 for the same day and
doctor is rejected (its end 17:15 lies past the end of working hours), so a
listed slot is not bookable. -/
theorem c2_counterexample :
    get_slots [("Monday", ⟨"Dr. A", "09:15", "17:00"⟩)] [] "Monday" 0 =
      .ok "Dr. A" "Monday"
        ["09:15", "09:45", "10:15", "10:45", "11:15", "11:45", "12:15", "12:45",
         "14:15", "14:45", "15:15", "15:45", "16:15", "16:45"] ∧
    "16:45" ∈
      ["09:15", "09:45", "10:15", "10:45", "11:15", "11:45", "12:15", "12:45",
       "14:15", "14:45", "15:15", "15:45", "16:15", "16:45"] ∧
    (log_booking [("Monday", ⟨"Dr. A", "09:15", "17:00"⟩)] []
      ⟨"Bob", "Dr. A", "Monday", "16:45"⟩ 0).1 = .outsideWorkingHours :=
  ⟨rfl, by decide, rfl⟩

/-- Witness for C2 (amended): the offered 09:30 slot of a 09:00–10:00
schedule books successfully. -/
theorem c2_round_trip_amended_witness :
    ∃ a, (log_booking [("Monday", ⟨"Dr. A", "09:00", "10:00"⟩)] []
      ⟨"Alice", "Dr. A", "Monday", "09:30"⟩ 0).1 = .success a :=
  c2_round_trip_amended [("Monday", ⟨"Dr. A", "09:00", "10:00"⟩)] [] "Monday" "Alice" 0
    "Dr. A" "Monday" "09:30" ["09:00", "09:30"] ⟨"Dr. A", "09:00", "10:00"⟩ 540 600
    (by decide) (by decide) (by decide) (by decide) (by decide) (by decide) (by decide)
    (by decide) (by decide) (by decide)
